import Mathlib

/-
Shallow embedding of datatug/sql2csv (src/sql2csv.go).

The package converts a database query result (`sql.Rows`) to CSV.  The
embedding models:
  * the loosely typed cell values that `rows.Scan` produces, as a closed
    variant `Value` (byte slice, time value, nil, or a generic value whose
    default `%v` rendering is carried as string),
  * column metadata (`sql.ColumnType`: name and database type name),
  * the row source `sql.Rows` as the column-metadata result, the list of
    successive scan results, and the terminal `rows.Err()` value,
  * the buffered CSV writer (`csv.NewWriter` over the destination) as a
    `Sink` holding still-buffered rows, flushed rows, a write counter and a
    failure schedule for the destination,
  * `uuid.FromBytes` / `UUID.String` from github.com/google/uuid,
  * the `Converter` with its `Write`, `WriteString`, `WriteFile` and
    `String` methods, and `NewConverter`.

Machine integers do not appear in the translated logic; bytes are `Nat`s
(only rendered), so no overflow modelling is needed.
-/

namespace Sql2csv

/-- Errors that the Go code can return.  Go errors are opaque values; each
constructor tags the site that created the error in the source. -/
inductive Err where
  | columnTypesErr : String → Err
  | scanErr : String → Err
  | uuidErr : Nat → Err
  | sinkErr : String → Err
  | rowsErr : String → Err
  | createErr : String → Err
  | closeErr : String → Err
deriving DecidableEq

/-- One column's metadata (`*sql.ColumnType`): `Name()` and
`DatabaseTypeName()`. -/
structure Column where
  name : String
  databaseTypeName : String
deriving DecidableEq

/-- A raw scanned cell value (`interface{}` filled in by `rows.Scan`).
`bytes` is a `[]byte`; `time` is a `time.Time`, carrying its
`Format` method (layout string to rendering) and its default `%v`
rendering; `null` is a nil interface value; `other` is any other value,
carrying its `fmt.Sprintf("%v", value)` rendering. -/
inductive Value where
  | bytes : List Nat → Value
  | time : (String → String) → String → Value
  | null : Value
  | other : String → Value

/-- The row source (`*sql.Rows`): the result of `ColumnTypes()`, the
successive per-row outcomes of `Next()`+`Scan(...)` in order, and the
terminal `Err()` value consulted after the loop. -/
structure Rows where
  columnTypesRes : Except Err (List Column)
  rowData : List (Except Err (List Value))
  terminalErr : Option Err

/-- The CSV writer (`csv.NewWriter(writer)`) together with the destination:
`comma` is the delimiter field, `buffered` the rows accepted but not yet
flushed to the destination, `flushed` the rows already in the destination,
`written` counts write attempts so far and `failOn` says which write
attempts the destination fails. -/
structure Sink where
  comma : Char
  written : Nat
  failOn : Nat → Bool
  buffered : List (List String)
  flushed : List (List String)

/-- `csvWriter.Write(row)`: on failure returns the error; on success the
row joins the internal buffer. -/
def Sink.write (s : Sink) (row : List String) : Sink × Option Err :=
  if s.failOn s.written then
    ({ s with written := s.written + 1 }, some (Err.sinkErr "write"))
  else
    ({ s with written := s.written + 1, buffered := s.buffered ++ [row] }, none)

/-- `csvWriter.Flush()`: moves all buffered rows into the destination.  It
returns no value in Go (`csv.Writer.Flush` has no result), which the model
mirrors by being total. -/
def Sink.flush (s : Sink) : Sink :=
  { s with buffered := [], flushed := s.flushed ++ s.buffered }

/-- All rows the writer has accepted, in order (destination content plus
the rows still sitting in the writer's buffer). -/
def Sink.trace (s : Sink) : List (List String) :=
  s.flushed ++ s.buffered

/-- The destination never fails a write (e.g. a `bytes.Buffer`). -/
def Sink.noFail (s : Sink) : Prop :=
  ∀ n, s.failOn n = false

/-- Lower-case hex digit. -/
def hexDigit (n : Nat) : Char :=
  if n < 10 then Char.ofNat (48 + n) else Char.ofNat (87 + n)

/-- `hex.Encode` of one byte: two lower-case hex digits. -/
def byteToHex (n : Nat) : String :=
  String.mk [hexDigit (n / 16 % 16), hexDigit (n % 16)]

/-- `hex.Encode` of a byte slice. -/
def bytesToHex (l : List Nat) : String :=
  String.join (l.map byteToHex)

/-- `uuid.UUID.String()`: canonical hyphenated hexadecimal form, groups of
4, 2, 2, 2 and 6 bytes. -/
def uuid_String (u : List Nat) : String :=
  bytesToHex (u.take 4) ++ "-" ++ bytesToHex ((u.drop 4).take 2) ++ "-" ++
    bytesToHex ((u.drop 6).take 2) ++ "-" ++ bytesToHex ((u.drop 8).take 2) ++ "-" ++
    bytesToHex (u.drop 10)

/-- `uuid.FromBytes(b)`: succeeds exactly when `b` has 16 bytes
(`UnmarshalBinary` rejects any other length with
"invalid UUID (got %d bytes)"). -/
def uuid_FromBytes (b : List Nat) : Except Err (List Nat) :=
  if b.length = 16 then Except.ok b else Except.error (Err.uuidErr b.length)

/-- Go's `string(b)` on a `[]byte`: the bytes reinterpreted verbatim as
text (modelled byte-by-byte; the empty slice gives the empty string). -/
def goStringOfBytes (b : List Nat) : String :=
  String.mk (b.map Char.ofNat)

/-- One cell of the value-stringification in `Converter.Write`
(src/sql2csv.go lines 143-168): byte slices are checked first — a
`UNIQUEIDENTIFIER` column decodes them as a UUID (failure is returned as an
error), any other column takes `string(b)` verbatim; otherwise a
`time.Time` is formatted with `TimeFormat` when one is set, a nil value
becomes the empty string, and anything else is `fmt.Sprintf("%v", value)`. -/
def stringifyCell (timeFormat : String) (column : Column) (v : Value) : Except Err String :=
  match v with
  | Value.bytes b =>
      if column.databaseTypeName = "UNIQUEIDENTIFIER" then
        match uuid_FromBytes b with
        | Except.error e => Except.error e
        | Except.ok u => Except.ok (uuid_String u)
      else
        Except.ok (goStringOfBytes b)
  | Value.time fmtFn defaultStr =>
      Except.ok (if timeFormat ≠ "" then fmtFn timeFormat else defaultStr)
  | Value.null => Except.ok ""
  | Value.other s => Except.ok s

/-- The per-row stringification loop `for i, column := range columns`
(src/sql2csv.go lines 143-169): cells in column order, first failure
returned.  In Go `Scan` fills exactly one value per column, so the lists
always have equal length; the truncating cases are unreachable there. -/
def stringifyRow (timeFormat : String) : List Column → List Value → Except Err (List String)
  | [], _ => Except.ok []
  | _ :: _, [] => Except.ok []
  | col :: cols, v :: vs =>
      match stringifyCell timeFormat col v with
      | Except.error e => Except.error e
      | Except.ok s =>
          match stringifyRow timeFormat cols vs with
          | Except.error e => Except.error e
          | Except.ok rest => Except.ok (s :: rest)

/-- `CsvRowPostProcessorFunc`: row and column metadata in, an
"emit this row" flag and the replacement row out. -/
def CsvRowPostProcessorFunc : Type :=
  List String → List Column → Bool × List String

/-- The `Converter` struct: exported configuration fields plus the
unexported row source and optional post-processor. -/
structure Converter where
  Headers : List String
  WriteHeaders : Bool
  TimeFormat : String
  Delimiter : Char
  rows : Rows
  rowPostProcessor : Option CsvRowPostProcessorFunc

/-- `NewConverter(rows)`: headers on, comma delimiter, no header override,
no time format, no post-processor. -/
def NewConverter (rows : Rows) : Converter :=
  { Headers := [], WriteHeaders := true, TimeFormat := "", Delimiter := ',',
    rows := rows, rowPostProcessor := none }

/-- The header row `Write` uses when `WriteHeaders` is set
(src/sql2csv.go lines 111-120): the `Headers` override when non-empty,
otherwise the column names in order. -/
def headerRow (c : Converter) (columns : List Column) : List String :=
  if c.Headers.length > 0 then c.Headers else columns.map Column.name

/-- The post-processing step (src/sql2csv.go lines 171-174):
`writeRow := true`, overridden by the post-processor when one is set. -/
def postProcess (c : Converter) (columns : List Column) (row : List String) :
    Bool × List String :=
  match c.rowPostProcessor with
  | some f => f row columns
  | none => (true, row)

/-- The delimiter setup of `Write` (src/sql2csv.go lines 98-101):
`csvWriter.Comma = c.Delimiter` unless `Delimiter` is the zero rune. -/
def initialSink (c : Converter) (s0 : Sink) : Sink :=
  if c.Delimiter ≠ Char.ofNat 0 then { s0 with comma := c.Delimiter } else s0

/-- The `for rows.Next()` loop of `Write` (src/sql2csv.go lines 132-187):
scan failure returns the error; cell stringification failure returns the
error; otherwise the (possibly post-processed) row is written unless
filtered, and a write failure returns the error.  When the list is
exhausted the terminal `rows.Err()` is taken, the writer is flushed, and
that error is returned. -/
def writeRowsLoop (c : Converter) (columns : List Column) :
    List (Except Err (List Value)) → Sink → Sink × Option Err
  | [], sink => (sink.flush, c.rows.terminalErr)
  | Except.error e :: _, sink => (sink, some e)
  | Except.ok vals :: rest, sink =>
      match stringifyRow c.TimeFormat columns vals with
      | Except.error e => (sink, some e)
      | Except.ok row0 =>
          let pr := postProcess c columns row0
          if pr.1 then
            match sink.write pr.2 with
            | (sink1, some e) => (sink1, some e)
            | (sink1, none) => writeRowsLoop c columns rest sink1
          else
            writeRowsLoop c columns rest sink

/-- `Converter.Write` (src/sql2csv.go lines 96-188): set the delimiter,
get the column types (failure returned), write the header row when
`WriteHeaders` is set (failure returned), then run the row loop. -/
def Converter.Write (c : Converter) (s0 : Sink) : Sink × Option Err :=
  let sink := initialSink c s0
  match c.rows.columnTypesRes with
  | Except.error e => (sink, some e)
  | Except.ok columns =>
      if c.WriteHeaders then
        match sink.write (headerRow c columns) with
        | (sink1, some e) => (sink1, some e)
        | (sink1, none) => writeRowsLoop c columns c.rows.rowData sink1
      else
        writeRowsLoop c columns c.rows.rowData sink

/-- CSV content at the row level: a list of rows of fields. -/
def Csv : Type :=
  List (List String)

/-- A fresh `bytes.Buffer` destination: accepts every write. -/
def bufferSink : Sink :=
  { comma := ',', written := 0, failOn := fun _ => false, buffered := [], flushed := [] }

/-- `Converter.WriteString` (src/sql2csv.go lines 73-77): write into a
fresh buffer and return its content (the flushed rows — the CSV writer's
still-buffered rows never reached the buffer) together with the error. -/
def Converter.WriteString (c : Converter) : List (List String) × Option Err :=
  let res := c.Write bufferSink
  (res.1.flushed, res.2)

/-- `Converter.String` (src/sql2csv.go lines 64-70): `WriteString`, with
the empty string (here: no rows) on error. -/
def Converter.String (c : Converter) : List (List String) :=
  let res := c.WriteString
  match res.2 with
  | some _ => []
  | none => res.1

/-- The filesystem as `WriteFile` sees it: whether `os.Create` fails,
which writes to the created file fail, and whether `Close` fails. -/
structure FileModel where
  createErr : Option Err
  failOn : Nat → Bool
  closeErr : Option Err

/-- The empty destination sink over a freshly created file. -/
def fileSink (fm : FileModel) : Sink :=
  { comma := ',', written := 0, failOn := fm.failOn, buffered := [], flushed := [] }

/-- An open file handle: its sink state, whether it has been closed, and
the error its `Close` reports. -/
structure FileHandle where
  sink : Sink
  closed : Bool
  closeErr : Option Err

/-- `os.Create`. -/
def os_Create (fm : FileModel) : Except Err FileHandle :=
  match fm.createErr with
  | some e => Except.error e
  | none => Except.ok { sink := fileSink fm, closed := false, closeErr := fm.closeErr }

/-- `f.Close()`. -/
def FileHandle.close (f : FileHandle) : FileHandle × Option Err :=
  ({ f with closed := true }, f.closeErr)

/-- `Converter.WriteFile` (src/sql2csv.go lines 80-93): create the file
(failure returned at once, before any conversion), write, and on a write
error close the file discarding the close error and return the write
error; otherwise return the close error. -/
def Converter.WriteFile (c : Converter) (fm : FileModel) :
    Option FileHandle × Option Err :=
  match os_Create fm with
  | Except.error e => (none, some e)
  | Except.ok f =>
      let res := c.Write f.sink
      let f1 : FileHandle := { f with sink := res.1 }
      match res.2 with
      | some e => (some (f1.close).1, some e)
      | none =>
          let cl := f1.close
          (some cl.1, cl.2)

/-- Reference description of the header part of the output: one resolved
header row when `WriteHeaders` is set, nothing otherwise. -/
def writeHeaderPart (c : Converter) (columns : List Column) : List (List String) :=
  if c.WriteHeaders then [headerRow c columns] else []

/-- Reference description of the data rows the loop hands to the CSV
writer, assuming the destination accepts every write: rows are
stringified and post-processed in order until the first scan or
stringification failure, and filtered rows contribute nothing. -/
def emittedRows (c : Converter) (columns : List Column) :
    List (Except Err (List Value)) → List (List String)
  | [] => []
  | Except.error _ :: _ => []
  | Except.ok vals :: rest =>
      match stringifyRow c.TimeFormat columns vals with
      | Except.error _ => []
      | Except.ok row0 =>
          let pr := postProcess c columns row0
          if pr.1 then pr.2 :: emittedRows c columns rest
          else emittedRows c columns rest

/-- Reference description of the loop's returned error, assuming the
destination accepts every write: the first scan or stringification
failure, and the terminal `rows.Err()` when there is none. -/
def loopOutcome (c : Converter) (columns : List Column) :
    List (Except Err (List Value)) → Option Err
  | [] => c.rows.terminalErr
  | Except.error e :: _ => some e
  | Except.ok vals :: rest =>
      match stringifyRow c.TimeFormat columns vals with
      | Except.error e => some e
      | Except.ok _ => loopOutcome c columns rest

/-- Every row of the source scans and stringifies without error, i.e. the
loop runs to exhaustion of the row source (destination failures aside). -/
def rowsAllProcess (c : Converter) (columns : List Column) :
    List (Except Err (List Value)) → Bool
  | [] => true
  | Except.error _ :: _ => false
  | Except.ok vals :: rest =>
      match stringifyRow c.TimeFormat columns vals with
      | Except.error _ => false
      | Except.ok _ => rowsAllProcess c columns rest

/-- Reference description of the stringified rows before post-processing,
up to the first scan or stringification failure. -/
def stringifiedRows (c : Converter) (columns : List Column) :
    List (Except Err (List Value)) → List (List String)
  | [] => []
  | Except.error _ :: _ => []
  | Except.ok vals :: rest =>
      match stringifyRow c.TimeFormat columns vals with
      | Except.error _ => []
      | Except.ok row0 => row0 :: stringifiedRows c columns rest

/-- A `Write` call as Go performs it: the receiver is passed by value and
the body contains no assignment to any receiver field, so the receiver at
method exit is the receiver at entry; the wrapper exposes that exit
receiver next to the result. -/
def Converter.WriteCall (c : Converter) (s0 : Sink) :
    Converter × (Sink × Option Err) :=
  (c, Converter.Write c s0)

/-- A `WriteString` call with its exit receiver (value receiver, no field
assignment in the body). -/
def Converter.WriteStringCall (c : Converter) :
    Converter × (Csv × Option Err) :=
  (c, Converter.WriteString c)

/-- A `WriteFile` call with its exit receiver (value receiver, no field
assignment in the body). -/
def Converter.WriteFileCall (c : Converter) (fm : FileModel) :
    Converter × (Option FileHandle × Option Err) :=
  (c, Converter.WriteFile c fm)

/-- A `String` call with its exit receiver (value receiver, no field
assignment in the body). -/
def Converter.StrCall (c : Converter) :
    Converter × Csv :=
  (c, Converter.String c)

/-- Two-column metadata used by the concrete checks (mirrors the name/age
part of the repository's own test fixture). -/
def colsW : List Column :=
  [{ name := "name", databaseTypeName := "TEXT" },
   { name := "age", databaseTypeName := "INT" }]

/-- One well-formed scanned row for `colsW`. -/
def valsW : List Value :=
  [Value.other "Alice", Value.other "1"]

/-- A well-behaved row source: metadata succeeds, one clean row, no
terminal error. -/
def rowsW : Rows :=
  { columnTypesRes := Except.ok colsW,
    rowData := [Except.ok valsW],
    terminalErr := none }

/-- `NewConverter` over the well-behaved source. -/
def convW : Converter :=
  NewConverter rowsW

/-- The well-behaved source, but with a terminal iteration error. -/
def rowsTermE : Rows :=
  { columnTypesRes := Except.ok colsW,
    rowData := [Except.ok valsW],
    terminalErr := some (Err.rowsErr "late") }

/-- Converter over the source with a terminal error. -/
def convTerm : Converter :=
  NewConverter rowsTermE

/-- One `UNIQUEIDENTIFIER` column. -/
def colsU : List Column :=
  [{ name := "id", databaseTypeName := "UNIQUEIDENTIFIER" }]

/-- A source whose only row carries 3 bytes in a `UNIQUEIDENTIFIER`
column: `uuid.FromBytes` must reject them. -/
def rowsU : Rows :=
  { columnTypesRes := Except.ok colsU,
    rowData := [Except.ok [Value.bytes [1, 2, 3]]],
    terminalErr := none }

/-- Converter over the malformed-identifier source. -/
def convU : Converter :=
  NewConverter rowsU

/-- A source whose first row fails to scan. -/
def rowsScanE : Rows :=
  { columnTypesRes := Except.ok [{ name := "name", databaseTypeName := "TEXT" }],
    rowData := [Except.error (Err.scanErr "conn reset")],
    terminalErr := none }

/-- Converter over the scan-failing source (headers on, so the header row
sits in the CSV writer's buffer when the scan error hits). -/
def convScanE : Converter :=
  NewConverter rowsScanE

/-- A one-column source with a single null row. -/
def rowsOne : Rows :=
  { columnTypesRes := Except.ok [{ name := "name", databaseTypeName := "TEXT" }],
    rowData := [Except.ok [Value.null]],
    terminalErr := none }

/-- A converter whose explicit two-entry header override sits over a
one-column source: the code performs no length validation. -/
def convMismatch : Converter :=
  { NewConverter rowsOne with Headers := ["a", "b"] }

/-- A post-processor that filters every row out. -/
def ppDrop : CsvRowPostProcessorFunc :=
  fun _ _ => (false, [])

/-- A filesystem on which `os.Create` fails. -/
def fmCreateE : FileModel :=
  { createErr := some (Err.createErr "denied"), failOn := fun _ => false,
    closeErr := none }

/-- A filesystem on which the file is created and written without error
but `Close` fails. -/
def fmCloseE : FileModel :=
  { createErr := none, failOn := fun _ => false,
    closeErr := some (Err.closeErr "close fail") }

theorem bufferSink_noFail : bufferSink.noFail :=
  fun _ => rfl

theorem Sink.write_of_noFail (s : Sink) (row : List String) (h : s.noFail) :
    s.write row
      = ({ s with written := s.written + 1, buffered := s.buffered ++ [row] }, none) := by
  simp [Sink.write, h s.written]

theorem initialSink_flushed (c : Converter) (s0 : Sink) :
    (initialSink c s0).flushed = s0.flushed := by
  unfold initialSink
  split <;> rfl

theorem initialSink_buffered (c : Converter) (s0 : Sink) :
    (initialSink c s0).buffered = s0.buffered := by
  unfold initialSink
  split <;> rfl

theorem initialSink_trace (c : Converter) (s0 : Sink) :
    (initialSink c s0).trace = s0.trace := by
  unfold initialSink
  split <;> rfl

theorem initialSink_noFail (c : Converter) (s0 : Sink) (h : s0.noFail) :
    (initialSink c s0).noFail := by
  unfold initialSink
  split
  · exact fun n => h n
  · exact h

theorem loop_trace (c : Converter) (columns : List Column)
    (data : List (Except Err (List Value))) :
    ∀ sink : Sink, sink.noFail →
      ((writeRowsLoop c columns data sink).1).trace
        = sink.trace ++ emittedRows c columns data := by
  induction data with
  | nil =>
      intro sink _
      simp [writeRowsLoop, emittedRows, Sink.trace, Sink.flush]
  | cons r rest ih =>
      intro sink h
      cases r with
      | error e =>
          simp [writeRowsLoop, emittedRows]
      | ok vals =>
          cases hs : stringifyRow c.TimeFormat columns vals with
          | error e =>
              simp [writeRowsLoop, emittedRows, hs]
          | ok row0 =>
              cases hpr : postProcess c columns row0 with
              | mk emit prow =>
                  cases emit with
                  | false =>
                      simp only [writeRowsLoop, emittedRows, hs, hpr, ite_false]
                      exact ih sink h
                  | true =>
                      simp only [writeRowsLoop, emittedRows, hs, hpr,
                        Sink.write_of_noFail sink prow h, ite_true]
                      rw [ih { sink with written := sink.written + 1, buffered := sink.buffered ++ [prow] } (fun n => h n)]
                      simp [Sink.trace]

theorem loop_snd (c : Converter) (columns : List Column)
    (data : List (Except Err (List Value))) :
    ∀ sink : Sink, sink.noFail →
      (writeRowsLoop c columns data sink).2 = loopOutcome c columns data := by
  induction data with
  | nil =>
      intro sink _
      rfl
  | cons r rest ih =>
      intro sink h
      cases r with
      | error e => rfl
      | ok vals =>
          cases hs : stringifyRow c.TimeFormat columns vals with
          | error e =>
              simp [writeRowsLoop, loopOutcome, hs]
          | ok row0 =>
              cases hpr : postProcess c columns row0 with
              | mk emit prow =>
                  cases emit with
                  | false =>
                      simp only [writeRowsLoop, loopOutcome, hs, hpr, ite_false]
                      exact ih sink h
                  | true =>
                      simp only [writeRowsLoop, loopOutcome, hs, hpr,
                        Sink.write_of_noFail sink prow h, ite_true]
                      exact ih _ (fun n => h n)

theorem loop_flushed (c : Converter) (columns : List Column)
    (data : List (Except Err (List Value))) :
    ∀ sink : Sink, sink.noFail →
      ((writeRowsLoop c columns data sink).1).flushed
        = if rowsAllProcess c columns data
          then sink.trace ++ emittedRows c columns data
          else sink.flushed := by
  induction data with
  | nil =>
      intro sink _
      simp [writeRowsLoop, rowsAllProcess, emittedRows, Sink.flush, Sink.trace]
  | cons r rest ih =>
      intro sink h
      cases r with
      | error e =>
          simp [writeRowsLoop, rowsAllProcess]
      | ok vals =>
          cases hs : stringifyRow c.TimeFormat columns vals with
          | error e =>
              simp [writeRowsLoop, rowsAllProcess, hs]
          | ok row0 =>
              cases hpr : postProcess c columns row0 with
              | mk emit prow =>
                  cases emit with
                  | false =>
                      simp only [writeRowsLoop, rowsAllProcess, emittedRows, hs, hpr, ite_false]
                      exact ih sink h
                  | true =>
                      simp only [writeRowsLoop, rowsAllProcess, emittedRows, hs, hpr,
                        Sink.write_of_noFail sink prow h, ite_true]
                      rw [ih { sink with written := sink.written + 1, buffered := sink.buffered ++ [prow] } (fun n => h n)]
                      cases hA : rowsAllProcess c columns rest <;>
                        simp [hA, Sink.trace]

theorem loop_buffered (c : Converter) (columns : List Column)
    (data : List (Except Err (List Value))) :
    ∀ sink : Sink, sink.noFail →
      ((writeRowsLoop c columns data sink).1).buffered
        = if rowsAllProcess c columns data
          then []
          else sink.buffered ++ emittedRows c columns data := by
  induction data with
  | nil =>
      intro sink _
      simp [writeRowsLoop, rowsAllProcess, Sink.flush]
  | cons r rest ih =>
      intro sink h
      cases r with
      | error e =>
          simp [writeRowsLoop, rowsAllProcess, emittedRows]
      | ok vals =>
          cases hs : stringifyRow c.TimeFormat columns vals with
          | error e =>
              simp [writeRowsLoop, rowsAllProcess, emittedRows, hs]
          | ok row0 =>
              cases hpr : postProcess c columns row0 with
              | mk emit prow =>
                  cases emit with
                  | false =>
                      simp only [writeRowsLoop, rowsAllProcess, emittedRows, hs, hpr, ite_false]
                      exact ih sink h
                  | true =>
                      simp only [writeRowsLoop, rowsAllProcess, emittedRows, hs, hpr,
                        Sink.write_of_noFail sink prow h, ite_true]
                      rw [ih { sink with written := sink.written + 1, buffered := sink.buffered ++ [prow] } (fun n => h n)]
                      cases hA : rowsAllProcess c columns rest <;> simp [hA]

theorem write_cases (c : Converter) (s0 : Sink) (columns : List Column)
    (hc : c.rows.columnTypesRes = Except.ok columns) (hf : s0.noFail) :
    ∃ sink1 : Sink,
      c.Write s0 = writeRowsLoop c columns c.rows.rowData sink1
      ∧ sink1.noFail
      ∧ sink1.trace = s0.trace ++ writeHeaderPart c columns
      ∧ sink1.flushed = s0.flushed
      ∧ sink1.buffered = s0.buffered ++ writeHeaderPart c columns := by
  by_cases hw : c.WriteHeaders
  · refine ⟨{ initialSink c s0 with
        written := (initialSink c s0).written + 1,
        buffered := (initialSink c s0).buffered ++ [headerRow c columns] },
      ?_, ?_, ?_, ?_, ?_⟩
    · simp only [Converter.Write, hc, if_pos hw,
        Sink.write_of_noFail _ _ (initialSink_noFail c s0 hf)]
    · exact fun n => initialSink_noFail c s0 hf n
    · simp [Sink.trace, initialSink_flushed, initialSink_buffered, writeHeaderPart, hw]
    · exact initialSink_flushed c s0
    · simp [initialSink_buffered, writeHeaderPart, hw]
  · refine ⟨initialSink c s0, ?_, initialSink_noFail c s0 hf, ?_, initialSink_flushed c s0, ?_⟩
    · simp only [Converter.Write, hc, if_neg hw]
    · simp [initialSink_trace, writeHeaderPart, hw]
    · simp [initialSink_buffered, writeHeaderPart, hw]

theorem write_trace (c : Converter) (s0 : Sink) (columns : List Column)
    (hc : c.rows.columnTypesRes = Except.ok columns) (hf : s0.noFail) :
    ((c.Write s0).1).trace
      = s0.trace ++ writeHeaderPart c columns ++ emittedRows c columns c.rows.rowData := by
  obtain ⟨sink1, heq, hnf, htr, _, _⟩ := write_cases c s0 columns hc hf
  rw [heq, loop_trace c columns _ sink1 hnf, htr, List.append_assoc]

theorem write_snd (c : Converter) (s0 : Sink) (columns : List Column)
    (hc : c.rows.columnTypesRes = Except.ok columns) (hf : s0.noFail) :
    (c.Write s0).2 = loopOutcome c columns c.rows.rowData := by
  obtain ⟨sink1, heq, hnf, _, _, _⟩ := write_cases c s0 columns hc hf
  rw [heq, loop_snd c columns _ sink1 hnf]

theorem write_flushed (c : Converter) (s0 : Sink) (columns : List Column)
    (hc : c.rows.columnTypesRes = Except.ok columns) (hf : s0.noFail) :
    ((c.Write s0).1).flushed
      = if rowsAllProcess c columns c.rows.rowData
        then s0.trace ++ writeHeaderPart c columns ++ emittedRows c columns c.rows.rowData
        else s0.flushed := by
  obtain ⟨sink1, heq, hnf, htr, hfl, _⟩ := write_cases c s0 columns hc hf
  rw [heq, loop_flushed c columns _ sink1 hnf, htr, hfl, List.append_assoc]

theorem write_buffered (c : Converter) (s0 : Sink) (columns : List Column)
    (hc : c.rows.columnTypesRes = Except.ok columns) (hf : s0.noFail) :
    ((c.Write s0).1).buffered
      = if rowsAllProcess c columns c.rows.rowData
        then []
        else s0.buffered ++ writeHeaderPart c columns ++ emittedRows c columns c.rows.rowData := by
  obtain ⟨sink1, heq, hnf, _, _, hbu⟩ := write_cases c s0 columns hc hf
  rw [heq, loop_buffered c columns _ sink1 hnf, hbu, List.append_assoc]

theorem loopOutcome_of_allProcess (c : Converter) (columns : List Column) :
    ∀ data, rowsAllProcess c columns data = true →
      loopOutcome c columns data = c.rows.terminalErr := by
  intro data
  induction data with
  | nil => intro _; rfl
  | cons r rest ih =>
      intro hall
      cases r with
      | error e => simp [rowsAllProcess] at hall
      | ok vals =>
          cases hs : stringifyRow c.TimeFormat columns vals with
          | error e =>
              rw [rowsAllProcess, hs] at hall
              cases hall
          | ok row0 =>
              rw [rowsAllProcess, hs] at hall
              rw [loopOutcome, hs]
              exact ih hall

theorem loopOutcome_append_of_error (c : Converter) (columns : List Column)
    (vals : List Value) (rest : List (Except Err (List Value))) (e : Err)
    (hs : stringifyRow c.TimeFormat columns vals = Except.error e) :
    ∀ pre, rowsAllProcess c columns pre = true →
      loopOutcome c columns (pre ++ Except.ok vals :: rest) = some e := by
  intro pre
  induction pre with
  | nil =>
      intro _
      rw [List.nil_append, loopOutcome, hs]
  | cons r pre ih =>
      intro hall
      cases r with
      | error e2 => simp [rowsAllProcess] at hall
      | ok vals2 =>
          cases hs2 : stringifyRow c.TimeFormat columns vals2 with
          | error e2 =>
              rw [rowsAllProcess, hs2] at hall
              cases hall
          | ok row0 =>
              rw [rowsAllProcess, hs2] at hall
              rw [List.cons_append, loopOutcome, hs2]
              exact ih hall

theorem emittedRows_append_of_error (c : Converter) (columns : List Column)
    (vals : List Value) (rest : List (Except Err (List Value))) (e : Err)
    (hs : stringifyRow c.TimeFormat columns vals = Except.error e) :
    ∀ pre, rowsAllProcess c columns pre = true →
      emittedRows c columns (pre ++ Except.ok vals :: rest)
        = emittedRows c columns pre := by
  intro pre
  induction pre with
  | nil =>
      intro _
      simp [emittedRows, hs]
  | cons r pre ih =>
      intro hall
      cases r with
      | error e2 => simp [rowsAllProcess] at hall
      | ok vals2 =>
          cases hs2 : stringifyRow c.TimeFormat columns vals2 with
          | error e2 =>
              rw [rowsAllProcess, hs2] at hall
              cases hall
          | ok row0 =>
              simp only [rowsAllProcess, hs2] at hall
              simp only [List.cons_append, emittedRows, hs2, List.append_eq]
              rw [ih hall]

theorem emittedRows_eq_filterMap (c : Converter) (columns : List Column)
    (f : CsvRowPostProcessorFunc) (hpp : c.rowPostProcessor = some f) :
    ∀ data, emittedRows c columns data
      = (stringifiedRows c columns data).filterMap
          (fun row => if (f row columns).1 then some (f row columns).2 else none) := by
  intro data
  induction data with
  | nil => rfl
  | cons r rest ih =>
      cases r with
      | error e => rfl
      | ok vals =>
          cases hs : stringifyRow c.TimeFormat columns vals with
          | error e =>
              rw [emittedRows, hs, stringifiedRows, hs]
              rfl
          | ok row0 =>
              rw [emittedRows, hs, stringifiedRows, hs]
              simp only [postProcess, hpp, List.filterMap_cons]
              cases hb : (f row0 columns).1 with
              | false => simpa [hb] using ih
              | true => simpa [hb] using ih

theorem emittedRows_eq_stringified (c : Converter) (columns : List Column)
    (hpp : c.rowPostProcessor = none) :
    ∀ data, emittedRows c columns data = stringifiedRows c columns data := by
  intro data
  induction data with
  | nil => rfl
  | cons r rest ih =>
      cases r with
      | error e => rfl
      | ok vals =>
          cases hs : stringifyRow c.TimeFormat columns vals with
          | error e =>
              rw [emittedRows, hs, stringifiedRows, hs]
          | ok row0 =>
              rw [emittedRows, hs, stringifiedRows, hs]
              simp only [postProcess, hpp, ite_true]
              rw [ih]

theorem stringifyRow_length (tf : String) :
    ∀ (cols : List Column) (vals : List Value) (row : List String),
      stringifyRow tf cols vals = Except.ok row
        → row.length = min cols.length vals.length := by
  intro cols
  induction cols with
  | nil =>
      intro vals row h
      cases h
      simp
  | cons col cols ih =>
      intro vals row h
      cases vals with
      | nil =>
          cases h
          simp
      | cons v vs =>
          cases hcell : stringifyCell tf col v with
          | error e => rw [stringifyRow, hcell] at h; cases h
          | ok s =>
              cases hrest : stringifyRow tf cols vs with
              | error e => rw [stringifyRow, hcell, hrest] at h; cases h
              | ok rest =>
                  rw [stringifyRow, hcell, hrest] at h
                  cases h
                  simp only [List.length_cons]
                  rw [ih vs rest hrest]
                  omega

theorem emittedRows_length (c : Converter) (columns : List Column)
    (hpp : c.rowPostProcessor = none) :
    ∀ data, (∀ vals : List Value, (Except.ok vals : Except Err (List Value)) ∈ data → vals.length = columns.length) →
      ∀ row ∈ emittedRows c columns data, row.length = columns.length := by
  intro data
  induction data with
  | nil =>
      intro _ row hr
      cases hr
  | cons r rest ih =>
      intro hlen row hr
      cases r with
      | error e => cases hr
      | ok vals =>
          cases hs : stringifyRow c.TimeFormat columns vals with
          | error e =>
              rw [emittedRows, hs] at hr
              cases hr
          | ok row0 =>
              rw [emittedRows, hs] at hr
              simp only [postProcess, hpp, ite_true] at hr
              rcases List.mem_cons.mp hr with heq | hr2
              · subst heq
                have h1 := stringifyRow_length c.TimeFormat columns vals row hs
                have h2 : vals.length = columns.length :=
                  hlen vals (List.mem_cons_self _ _)
                rw [h1, h2]
                exact Nat.min_self _
              · exact ih (fun vs hv => hlen vs (List.mem_cons_of_mem _ hv)) row hr2

/-- Claim C1: for every `Write` call, with the write-headers flag enabled
exactly one header row is written before any data row — its content being
the explicit `Headers` override when non-empty and otherwise the column
display names in column order — while with the flag disabled no header row
is written and the output starts with the first data row (`emittedRows`
lists the data rows the loop emits, in order).  The destination is assumed
to accept writes. -/
theorem claim_C1 (c : Converter) (s0 : Sink) (columns : List Column)
    (hc : c.rows.columnTypesRes = Except.ok columns) (hf : s0.noFail) :
    (c.WriteHeaders = true →
      ((c.Write s0).1).trace
        = s0.trace
            ++ (if c.Headers.length > 0 then c.Headers else columns.map Column.name)
            :: emittedRows c columns c.rows.rowData) ∧
    (c.WriteHeaders = false →
      ((c.Write s0).1).trace = s0.trace ++ emittedRows c columns c.rows.rowData) := by
  constructor
  · intro hw
    rw [write_trace c s0 columns hc hf]
    simp [writeHeaderPart, headerRow, hw]
  · intro hw
    rw [write_trace c s0 columns hc hf]
    simp [writeHeaderPart, hw]

/-- Witness for C1: the concrete converter with headers on, and the same
converter with headers off. -/
theorem claim_C1_witness :
    ((convW.Write bufferSink).1).trace = [["name", "age"], ["Alice", "1"]] ∧
    (({ convW with WriteHeaders := false }).Write bufferSink).1.trace
      = [["Alice", "1"]] := by
  constructor
  · have h := (claim_C1 convW bufferSink colsW rfl bufferSink_noFail).1 rfl
    exact h.trans rfl
  · have h := (claim_C1 { convW with WriteHeaders := false } bufferSink colsW rfl
      bufferSink_noFail).2 rfl
    exact h.trans rfl

/-- Claim C2: a null cell stringifies to the empty string — never the
literal text "null" — for every column metadata and time format. -/
theorem claim_C2 (timeFormat : String) (column : Column) :
    stringifyCell timeFormat column Value.null = Except.ok "" ∧
    stringifyCell timeFormat column Value.null ≠ Except.ok "null" := by
  refine ⟨rfl, ?_⟩
  intro h
  injection h with h2
  exact (by decide : ("" : String) ≠ "null") h2

/-- Claim C3: a byte-slice cell in a column whose declared type is not
`UNIQUEIDENTIFIER` stringifies to the bytes taken verbatim as text, and the
empty byte slice yields the empty field through this binary rule. -/
theorem claim_C3 (timeFormat : String) (column : Column) (b : List Nat)
    (h : column.databaseTypeName ≠ "UNIQUEIDENTIFIER") :
    stringifyCell timeFormat column (Value.bytes b) = Except.ok (goStringOfBytes b) ∧
    stringifyCell timeFormat column (Value.bytes []) = Except.ok "" := by
  constructor
  · simp only [stringifyCell]
    rw [if_neg h]
  · simp only [stringifyCell]
    rw [if_neg h]
    rfl

/-- Witness for C3 at a concrete TEXT column. -/
theorem claim_C3_witness :
    stringifyCell "" { name := "n", databaseTypeName := "TEXT" } (Value.bytes [65, 66])
        = Except.ok (goStringOfBytes [65, 66]) ∧
    stringifyCell "" { name := "n", databaseTypeName := "TEXT" } (Value.bytes [])
        = Except.ok "" :=
  claim_C3 "" { name := "n", databaseTypeName := "TEXT" } [65, 66] (by decide)

/-- Claim C4: a byte-slice cell in a `UNIQUEIDENTIFIER` column is decoded
as a 16-byte identifier and rendered in canonical hyphenated hexadecimal
form; any other length produces the decoding error; and when a row's
stringification fails that way, `Write` returns exactly that error, the
rows emitted are exactly those of the prefix before the bad row (no
partial row for the bad row, no skip-and-continue). -/
theorem claim_C4 :
    (∀ (timeFormat : String) (column : Column) (b : List Nat),
        column.databaseTypeName = "UNIQUEIDENTIFIER" → b.length = 16 →
          stringifyCell timeFormat column (Value.bytes b)
            = Except.ok (uuid_String b)) ∧
    (∀ (timeFormat : String) (column : Column) (b : List Nat),
        column.databaseTypeName = "UNIQUEIDENTIFIER" → b.length ≠ 16 →
          stringifyCell timeFormat column (Value.bytes b)
            = Except.error (Err.uuidErr b.length)) ∧
    (∀ (c : Converter) (s0 : Sink) (columns : List Column)
        (pre rest : List (Except Err (List Value))) (vals : List Value) (e : Err),
        c.rows.columnTypesRes = Except.ok columns → s0.noFail →
        c.rows.rowData = pre ++ Except.ok vals :: rest →
        rowsAllProcess c columns pre = true →
        stringifyRow c.TimeFormat columns vals = Except.error e →
          (c.Write s0).2 = some e ∧
          ((c.Write s0).1).trace
            = s0.trace ++ writeHeaderPart c columns ++ emittedRows c columns pre) := by
  refine ⟨?_, ?_, ?_⟩
  · intro tf col b hcol hlen
    simp only [stringifyCell, hcol, if_pos, uuid_FromBytes, hlen, ite_true]
  · intro tf col b hcol hlen
    simp only [stringifyCell, hcol, if_pos, uuid_FromBytes, ite_true]
    rw [if_neg hlen]
  · intro c s0 columns pre rest vals e hc hf hdata hpre hs
    constructor
    · rw [write_snd c s0 columns hc hf, hdata]
      exact loopOutcome_append_of_error c columns vals rest e hs pre hpre
    · rw [write_trace c s0 columns hc hf, hdata,
        emittedRows_append_of_error c columns vals rest e hs pre hpre]

/-- Witness for C4: a valid 16-byte identifier renders, 3 bytes produce
the decoding error, and the 3-byte row makes the whole `Write` abort with
that error right after the header. -/
theorem claim_C4_witness :
    stringifyCell "" { name := "id", databaseTypeName := "UNIQUEIDENTIFIER" }
        (Value.bytes [107, 167, 184, 16, 157, 173, 17, 209,
          128, 180, 0, 192, 79, 212, 48, 200])
      = Except.ok (uuid_String [107, 167, 184, 16, 157, 173, 17, 209,
          128, 180, 0, 192, 79, 212, 48, 200]) ∧
    stringifyCell "" { name := "id", databaseTypeName := "UNIQUEIDENTIFIER" }
        (Value.bytes [1, 2, 3])
      = Except.error (Err.uuidErr 3) ∧
    (convU.Write bufferSink).2 = some (Err.uuidErr 3) ∧
    ((convU.Write bufferSink).1).trace = [["id"]] := by
  refine ⟨claim_C4.1 "" _ _ rfl rfl, claim_C4.2.1 "" _ _ rfl (by decide), ?_, ?_⟩
  · exact (claim_C4.2.2 convU bufferSink colsU [] [] [Value.bytes [1, 2, 3]]
      (Err.uuidErr 3) rfl bufferSink_noFail rfl rfl rfl).1
  · have h := (claim_C4.2.2 convU bufferSink colsU [] [] [Value.bytes [1, 2, 3]]
      (Err.uuidErr 3) rfl bufferSink_noFail rfl rfl rfl).2
    exact h.trans rfl

/-- Claim C5: with a post-processor installed, the data rows that reach
the writer are exactly the per-row results of applying it once to each
stringified row in order, kept when its flag is true and dropped when
false; without one, the stringified rows are emitted unmodified. -/
theorem claim_C5 (c : Converter) (s0 : Sink) (columns : List Column)
    (hc : c.rows.columnTypesRes = Except.ok columns) (hf : s0.noFail) :
    (∀ f : CsvRowPostProcessorFunc, c.rowPostProcessor = some f →
        ((c.Write s0).1).trace
          = s0.trace ++ writeHeaderPart c columns
              ++ (stringifiedRows c columns c.rows.rowData).filterMap
                   (fun row => if (f row columns).1 then some (f row columns).2 else none)) ∧
    (c.rowPostProcessor = none →
        ((c.Write s0).1).trace
          = s0.trace ++ writeHeaderPart c columns
              ++ stringifiedRows c columns c.rows.rowData) := by
  constructor
  · intro f hpp
    rw [write_trace c s0 columns hc hf, emittedRows_eq_filterMap c columns f hpp]
  · intro hpp
    rw [write_trace c s0 columns hc hf, emittedRows_eq_stringified c columns hpp]

/-- Witness for C5: a drop-everything post-processor leaves only the
header row; no post-processor emits the stringified row unmodified. -/
theorem claim_C5_witness :
    (({ convW with rowPostProcessor := some ppDrop }).Write bufferSink).1.trace
        = [["name", "age"]] ∧
    ((convW.Write bufferSink).1).trace = [["name", "age"], ["Alice", "1"]] := by
  constructor
  · have h := (claim_C5 { convW with rowPostProcessor := some ppDrop } bufferSink colsW
      rfl bufferSink_noFail).1 ppDrop rfl
    exact h.trans rfl
  · have h := (claim_C5 convW bufferSink colsW rfl bufferSink_noFail).2 rfl
    exact h.trans rfl

/-- Claim C6: when the row loop runs to exhaustion of the row source, the
source's terminal iteration error is the value `Write` returns, and the
rows emitted before exhaustion are flushed to the destination before
`Write` returns (buffer empty, all emissions in the flushed output). -/
theorem claim_C6 (c : Converter) (s0 : Sink) (columns : List Column)
    (hc : c.rows.columnTypesRes = Except.ok columns) (hf : s0.noFail)
    (hall : rowsAllProcess c columns c.rows.rowData = true) :
    (c.Write s0).2 = c.rows.terminalErr ∧
    ((c.Write s0).1).buffered = [] ∧
    ((c.Write s0).1).flushed
      = s0.trace ++ writeHeaderPart c columns ++ emittedRows c columns c.rows.rowData := by
  refine ⟨?_, ?_, ?_⟩
  · rw [write_snd c s0 columns hc hf]
    exact loopOutcome_of_allProcess c columns _ hall
  · rw [write_buffered c s0 columns hc hf, if_pos hall]
  · rw [write_flushed c s0 columns hc hf, if_pos hall]

/-- Witness for C6: a source with a terminal error still gets its row
flushed, and the terminal error is returned. -/
theorem claim_C6_witness :
    (convTerm.Write bufferSink).2 = some (Err.rowsErr "late") ∧
    ((convTerm.Write bufferSink).1).buffered = [] ∧
    ((convTerm.Write bufferSink).1).flushed = [["name", "age"], ["Alice", "1"]] := by
  obtain ⟨h1, h2, h3⟩ := claim_C6 convTerm bufferSink colsW rfl bufferSink_noFail rfl
  exact ⟨h1, h2, h3.trans rfl⟩

/-- Counterexample to C7 as stated: on the row-scan-failure exit path the
buffers are not flushed — `Write` returns the scan error while the header
row is still sitting unflushed in the CSV writer's buffer and nothing has
reached the destination. -/
theorem claim_C7_cex :
    (convScanE.Write bufferSink).2 = some (Err.scanErr "conn reset") ∧
    ((convScanE.Write bufferSink).1).buffered = [["name"]] ∧
    ((convScanE.Write bufferSink).1).buffered ≠ [] ∧
    ((convScanE.Write bufferSink).1).flushed = [] := by
  refine ⟨rfl, rfl, ?_, rfl⟩
  have h : ((convScanE.Write bufferSink).1).buffered = [["name"]] := rfl
  rw [h]
  decide

/-- Claim C7 (amended): the buffers are flushed exactly when the per-row
loop runs to exhaustion — then the destination holds the header and all
emitted rows — while on early error exits (row-scan or identifier-decoding
failure) no flush happens and the destination is unchanged; the returned
error is always the loop outcome, never a flush failure (the flush
operation reports none).  The destination is assumed to accept writes. -/
theorem claim_C7 (c : Converter) (s0 : Sink) (columns : List Column)
    (hc : c.rows.columnTypesRes = Except.ok columns) (hf : s0.noFail) :
    ((c.Write s0).1).flushed
      = (if rowsAllProcess c columns c.rows.rowData
         then s0.trace ++ writeHeaderPart c columns ++ emittedRows c columns c.rows.rowData
         else s0.flushed) ∧
    (c.Write s0).2 = loopOutcome c columns c.rows.rowData :=
  ⟨write_flushed c s0 columns hc hf, write_snd c s0 columns hc hf⟩

/-- Witness for C7 (amended): the scan-failing run leaves the destination
untouched; the clean run flushes header and data row. -/
theorem claim_C7_witness :
    ((convScanE.Write bufferSink).1).flushed = bufferSink.flushed ∧
    ((convW.Write bufferSink).1).flushed = [["name", "age"], ["Alice", "1"]] := by
  constructor
  · have h := (claim_C7 convScanE bufferSink
      [{ name := "name", databaseTypeName := "TEXT" }] rfl bufferSink_noFail).1
    exact h.trans rfl
  · have h := (claim_C7 convW bufferSink colsW rfl bufferSink_noFail).1
    exact h.trans rfl

/-- Claim C8: `WriteFile` returns a creation failure before any conversion
(the result does not depend on the converter); a successfully created file
is closed on every exit path; a write error is returned with a
simultaneous close failure discarded; and the close error is reported
exactly when the write succeeded. -/
theorem claim_C8 :
    (∀ (c c2 : Converter) (fm : FileModel) (e : Err), fm.createErr = some e →
        c.WriteFile fm = (none, some e) ∧ c.WriteFile fm = c2.WriteFile fm) ∧
    (∀ (c : Converter) (fm : FileModel), fm.createErr = none →
        ∃ f, (c.WriteFile fm).1 = some f ∧ f.closed = true) ∧
    (∀ (c : Converter) (fm : FileModel) (we : Err), fm.createErr = none →
        (c.Write (fileSink fm)).2 = some we → (c.WriteFile fm).2 = some we) ∧
    (∀ (c : Converter) (fm : FileModel), fm.createErr = none →
        (c.Write (fileSink fm)).2 = none → (c.WriteFile fm).2 = fm.closeErr) := by
  refine ⟨?_, ?_, ?_, ?_⟩
  · intro c c2 fm e h
    constructor
    · simp [Converter.WriteFile, os_Create, h]
    · simp [Converter.WriteFile, os_Create, h]
  · intro c fm h
    simp only [Converter.WriteFile, os_Create, h]
    cases hw : (c.Write (fileSink fm)).2 with
    | none => exact ⟨_, rfl, rfl⟩
    | some e => exact ⟨_, rfl, rfl⟩
  · intro c fm we h hw
    simp only [Converter.WriteFile, os_Create, h, hw]
  · intro c fm h hw
    simp only [Converter.WriteFile, os_Create, h, hw, FileHandle.close]

/-- Witness for C8 at concrete filesystems: creation failure surfaces
untouched, a created file ends closed, the write error beats the close
error, and the close error surfaces when the write succeeded. -/
theorem claim_C8_witness :
    convW.WriteFile fmCreateE = (none, some (Err.createErr "denied")) ∧
    ((convW.WriteFile fmCloseE).1.map FileHandle.closed) = some true ∧
    (convScanE.WriteFile fmCloseE).2 = some (Err.scanErr "conn reset") ∧
    (convW.WriteFile fmCloseE).2 = some (Err.closeErr "close fail") := by
  refine ⟨(claim_C8.1 convW convTerm fmCreateE (Err.createErr "denied") rfl).1,
    ?_, ?_, ?_⟩
  · obtain ⟨f, h1, h2⟩ := claim_C8.2.1 convW fmCloseE rfl
    rw [h1]
    simp [h2]
  · exact claim_C8.2.2.1 convScanE fmCloseE (Err.scanErr "conn reset") rfl rfl
  · exact claim_C8.2.2.2 convW fmCloseE rfl rfl

/-- Counterexample to C9 as stated: with an explicit two-entry header
override on a one-column source, the emitted header row has 2 fields while
the emitted data row has 1 — the claimed width invariant fails without any
post-processor, precisely because the override's length is not validated. -/
theorem claim_C9_cex :
    ((convMismatch.Write bufferSink).1).trace = [["a", "b"], [""]] ∧
    ¬ (∀ row ∈ ((convMismatch.Write bufferSink).1).trace,
        row.length = (["a", "b"] : List String).length) := by
  refine ⟨rfl, ?_⟩
  intro h
  have h2 := h [""] (by decide)
  exact absurd h2 (by decide)

/-- Claim C9 (amended): when the headers are derived from metadata (no
override), no post-processor is installed and every scanned row carries
one value per column, every row written — header and data alike — has
exactly one field per column; an explicit override is emitted verbatim
with no length validation, so a mismatched override can break this (see
the counterexample). -/
theorem claim_C9 (c : Converter) (s0 : Sink) (columns : List Column)
    (hc : c.rows.columnTypesRes = Except.ok columns) (hf : s0.noFail)
    (hb : s0.buffered = []) (hfl : s0.flushed = [])
    (hH : c.Headers = []) (hpp : c.rowPostProcessor = none)
    (hwh : c.WriteHeaders = true)
    (hlen : ∀ vals : List Value,
      (Except.ok vals : Except Err (List Value)) ∈ c.rows.rowData
        → vals.length = columns.length) :
    ∀ row ∈ ((c.Write s0).1).trace, row.length = columns.length := by
  intro row hr
  rw [write_trace c s0 columns hc hf] at hr
  have ht : s0.trace = [] := by simp [Sink.trace, hb, hfl]
  rw [ht, List.nil_append, writeHeaderPart, if_pos hwh] at hr
  rcases List.mem_append.mp hr with h1 | h2
  · have heq : row = headerRow c columns := List.mem_singleton.mp h1
    subst heq
    rw [headerRow, hH]
    simp
  · exact emittedRows_length c columns hpp c.rows.rowData hlen row h2

/-- Witness for C9 (amended): both rows of the concrete derived-header run
have one field per column. -/
theorem claim_C9_witness :
    ((convW.Write bufferSink).1).trace = [["name", "age"], ["Alice", "1"]] ∧
    (["name", "age"] : List String).length = colsW.length ∧
    (["Alice", "1"] : List String).length = colsW.length := by
  have hlen : ∀ vals : List Value,
      (Except.ok vals : Except Err (List Value)) ∈ convW.rows.rowData
        → vals.length = colsW.length := by
    intro vals hv
    have h : (Except.ok vals : Except Err (List Value)) = Except.ok valsW :=
      List.mem_singleton.mp hv
    injection h with h2
    rw [h2]
    rfl
  refine ⟨rfl, ?_, ?_⟩
  · exact claim_C9 convW bufferSink colsW rfl bufferSink_noFail rfl rfl rfl rfl rfl
      hlen ["name", "age"] (by decide)
  · exact claim_C9 convW bufferSink colsW rfl bufferSink_noFail rfl rfl rfl rfl rfl
      hlen ["Alice", "1"] (by decide)

/-- Claim C10: the four terminal operations leave the whole configuration
— `Headers`, `WriteHeaders`, `TimeFormat`, `Delimiter` and the installed
post-processor — exactly as it was: they take the receiver by value and
their bodies assign to no receiver field, so the receiver at exit equals
the receiver at entry. -/
theorem claim_C10 (c : Converter) (s0 : Sink) (fm : FileModel) :
    ((c.WriteCall s0).1.Headers = c.Headers ∧
     (c.WriteCall s0).1.WriteHeaders = c.WriteHeaders ∧
     (c.WriteCall s0).1.TimeFormat = c.TimeFormat ∧
     (c.WriteCall s0).1.Delimiter = c.Delimiter ∧
     (c.WriteCall s0).1.rowPostProcessor = c.rowPostProcessor) ∧
    (c.WriteStringCall).1 = c ∧
    (c.WriteFileCall fm).1 = c ∧
    (c.StrCall).1 = c :=
  ⟨⟨rfl, rfl, rfl, rfl, rfl⟩, rfl, rfl, rfl⟩

end Sql2csv
